import Mathlib

/-!
Verification of the concurrency-safe read-modify-write data layer of the
timeline application: the GitHub-contents store client (`getEvents`,
`saveEvents`), the conflict-retrying wrapper (`withRetry`), and the three
mutation routes (POST /api/events, PUT /api/events/[id],
DELETE /api/events/[id]).

Request bodies and the stored document are plain JSON values at runtime
(the TypeScript interfaces are erased), so they are modelled by an
untyped JSON value type; JS objects are association lists of fields.
-/

set_option autoImplicit false

/-- Untyped JSON value, the runtime shape of request bodies and of the
stored document after `JSON.parse`. -/
inductive JVal where
  | jnull : JVal
  | jbool (b : Bool) : JVal
  | jnum (n : Int) : JVal
  | jstr (s : String) : JVal
  | jarr (xs : List JVal) : JVal
  | jobj (fields : List (String × JVal)) : JVal

/-- A JS object: ordered fields, unique keys in documents produced by
`JSON.parse` (duplicates are stated as a hypothesis where it matters). -/
abbrev JObj := List (String × JVal)

/-- Property read `o[k]`: first field with the given key. -/
def jget : JObj → String → Option JVal
  | [], _ => none
  | (k', v') :: rest, k => if k' = k then some v' else jget rest k

/-- Property write `o[k] = v`: overwrite in place (JS keeps the original
key position), append at the end when the key is new. -/
def jset : JObj → String → JVal → JObj
  | [], k, v => [(k, v)]
  | (k', v') :: rest, k, v =>
    if k' = k then (k, v) :: rest else (k', v') :: jset rest k v

/-- Object spread `\x7b...base, ...extra\x7d`: apply every field of `extra`
onto `base`, later fields overwriting earlier ones. -/
def jmerge (base extra : JObj) : JObj :=
  extra.foldl (fun acc p => jset acc p.1 p.2) base

/-- Property access `v.k` on an arbitrary JSON value: a field lookup on
objects, `undefined` (here `none`) on everything else. -/
def JVal.getField : JVal → String → Option JVal
  | .jobj fs, k => jget fs k
  | _, _ => none

/-- JS truthiness of a possibly-absent JSON value, as used by
`if (!body.category)` and `if (body.category)` in the routes. -/
def truthy : Option JVal → Bool
  | none => false
  | some .jnull => false
  | some (.jbool b) => b
  | some (.jnum n) => n != 0
  | some (.jstr s) => s != ""
  | some (.jarr _) => true
  | some (.jobj _) => true

/-- The check `typeof x === "number" && Number.isFinite(x)` (numbers are
modelled as integers, so finiteness always holds). -/
def looksNumber : Option JVal → Bool
  | some (.jnum _) => true
  | _ => false

/-- Numeric value of a field known to be a number. -/
def numVal : Option JVal → Int
  | some (.jnum n) => n
  | _ => 0

/-- The check `typeof x === "string"`. -/
def looksString : Option JVal → Bool
  | some (.jstr _) => true
  | _ => false

/-- String value of a field known to be a string. -/
def strVal : Option JVal → String
  | some (.jstr s) => s
  | _ => ""

/-- JS `String.prototype.trim()`: strip whitespace from both ends
(structurally recursive so that concrete inputs evaluate). -/
def jsTrim (s : String) : String :=
  ⟨((s.data.dropWhile Char.isWhitespace).reverse.dropWhile
    Char.isWhitespace).reverse⟩

/-- The guard `x === undefined || x === null` used for optional fields. -/
def isAbsentOrNull : Option JVal → Bool
  | none => true
  | some .jnull => true
  | _ => false

/-- Nullish coalescing `x ?? null`: absent or null becomes null. -/
def coalesceNull : Option JVal → JVal
  | none => .jnull
  | some .jnull => .jnull
  | some v => v

/-- The `value` column of `CATEGORIES` in `src/lib/types.ts`: the fixed
five-value category enumeration. -/
def validCategoryValues : List String :=
  ["invention", "event", "person", "discovery", "civilization"]

/-- The membership test `validCategories.includes(body.category)`: true
exactly when the value is one of the five category strings. -/
def categoryIncluded : Option JVal → Bool
  | some (.jstr s) => decide (s ∈ validCategoryValues)
  | _ => false

/-- The remote versioned-document store (GitHub contents path
`data/events.json`): the current document bytes (`none` when the bytes do
not parse as JSON) and the current version token (the file SHA, opaque,
compared only for equality). -/
structure GHStore where
  content : Option JVal
  sha : Nat

/-- Failure taxonomy of the data layer, by JS error class:
`conflict` is `ConflictError`, `notFound` is `Error("NOT_FOUND")`,
`storeUnavailable` is the generic `GitHub API error`, `parseFailure` is a
`JSON.parse` throw, `typeError` is a runtime TypeError on a document of
the wrong shape. -/
inductive Err where
  | conflict : Err
  | notFound : Err
  | storeUnavailable : Err
  | parseFailure : Err
  | typeError : Err

/-- The `error instanceof ConflictError` test in `withRetry`. -/
def Err.isConflict : Err → Bool
  | .conflict => true
  | _ => false

/-- `getEvents` from the store client: fetch the document; a non-ok
response throws a generic error; otherwise the content is decoded and
`JSON.parse`d (a parse throw propagates) and the parsed value is returned
together with the file SHA. No schema validation is performed. `ok`
models whether the remote GET succeeds. -/
def getEvents (st : GHStore) (ok : Bool) : Except Err (JVal × Nat) :=
  if ok then
    match st.content with
    | none => .error .parseFailure
    | some v => .ok (v, st.sha)
  else .error .storeUnavailable

/-- HTTP status of the remote PUT, abstracting the GitHub contents API:
a stale SHA is answered 409, any other non-success (modelled by
`healthy = false`) is a non-409 error status, otherwise 200. -/
def ghPutStatus (st : GHStore) (healthy : Bool) (sha : Nat) : Nat :=
  if sha ≠ st.sha then 409 else if healthy then 200 else 500

/-- `saveEvents` from the store client: PUT the serialized document with
the supplied SHA; status 409 throws `ConflictError`, any other non-ok
status throws a generic error, success stores the document and returns
the new file SHA. -/
def saveEvents (st : GHStore) (healthy : Bool) (doc : JVal) (sha : Nat) :
    Except Err (GHStore × Nat) :=
  let status := ghPutStatus st healthy sha
  if status = 409 then .error .conflict
  else if status ≠ 200 then .error .storeUnavailable
  else .ok ({ content := some doc, sha := st.sha + 1 }, st.sha + 1)

/-- The loop body of `withRetry`: `fn i` is the outcome of the `i`-th
invocation of the retried closure; `remaining` is `maxRetries - attempt`,
the number of retries still allowed. Returns the final outcome and the
number of invocations performed. Retries exactly when the failure is a
`ConflictError` and `attempt < maxRetries`. -/
def withRetryGo {α : Type} (fn : Nat → Except Err α) :
    Nat → Nat → Except Err α × Nat
  | attempt, remaining =>
    match fn attempt with
    | .ok v => (.ok v, 1)
    | .error e =>
      match remaining with
      | 0 => (.error e, 1)
      | r + 1 =>
        if e.isConflict then
          let p := withRetryGo fn (attempt + 1) r
          (p.1, p.2 + 1)
        else (.error e, 1)

/-- `withRetry(fn, maxRetries)`: final outcome of the retry loop. -/
def withRetry {α : Type} (fn : Nat → Except Err α) (maxRetries : Nat) :
    Except Err α :=
  (withRetryGo fn 0 maxRetries).1

/-- Number of times `withRetry(fn, maxRetries)` invokes the closure. -/
def withRetryCalls {α : Type} (fn : Nat → Except Err α) (maxRetries : Nat) :
    Nat :=
  (withRetryGo fn 0 maxRetries).2

/-- Environment seen by one attempt of a retried closure: the remote
store's state when the attempt's read executes and when its write
executes (they differ exactly when a concurrent writer lands in
between), plus the health of the two remote calls. -/
structure World where
  readStore : GHStore
  writeStore : GHStore
  readOk : Bool
  writeOk : Bool

/-- Observable outcome of one invocation of a retried closure: the
result, the store it leaves behind, the number of remote read and write
calls it issued, and the SHA it supplied to its write call, if any. -/
structure AttemptOut (α : Type) where
  result : Except Err α
  store : GHStore
  reads : Nat
  writes : Nat
  suppliedSha : Option Nat

/-- Aggregate outcome of a retried run: final result, store left by the
deciding attempt, and totals over every attempt performed. -/
structure RunOut (α : Type) where
  result : Except Err α
  store : GHStore
  invocations : Nat
  reads : Nat
  writes : Nat

/-- The retry loop applied to an effectful closure: attempt `i` runs
against environment `env i`; a `ConflictError` with retries remaining
moves to attempt `i + 1`, anything else is final. Mirrors `withRetry`
while tracking the attempts' observable effects. -/
def runAttempts {α : Type} (attempt : World → AttemptOut α)
    (env : Nat → World) : Nat → Nat → RunOut α
  | i, remaining =>
    let a := attempt (env i)
    match a.result with
    | .ok v => ⟨.ok v, a.store, 1, a.reads, a.writes⟩
    | .error e =>
      match remaining with
      | 0 => ⟨.error e, a.store, 1, a.reads, a.writes⟩
      | r + 1 =>
        if e.isConflict then
          let rest := runAttempts attempt env (i + 1) r
          ⟨rest.result, rest.store, rest.invocations + 1,
            a.reads + rest.reads, a.writes + rest.writes⟩
        else ⟨.error e, a.store, 1, a.reads, a.writes⟩

/-- HTTP-level outcome of a route: 200/201, 400 validation failure,
401, 404, or 500. -/
inductive RouteResult (α : Type) where
  | ok (v : α) : RouteResult α
  | badRequest (msg : String) : RouteResult α
  | unauthorized : RouteResult α
  | notFound : RouteResult α
  | serverError : RouteResult α

/-- Observable outcome of one route invocation: the HTTP response, the
store after the request, and the total remote read/write calls issued. -/
structure RouteOut (α : Type) where
  response : RouteResult α
  store : GHStore
  reads : Nat
  writes : Nat

/-- The validation chain of POST /api/events, check for check in source
order; `none` means the body reaches the retry loop. -/
def validateCreate (body : JObj) : Option String :=
  if !looksNumber (jget body "year") then
    some "Field year must be a finite number"
  else if numVal (jget body "year") < -9999 ∨ numVal (jget body "year") > 9999 then
    some "Year must be between -9999 and 9999"
  else if !looksString (jget body "name") ∨ jsTrim (strVal (jget body "name")) = "" then
    some "Field name is required"
  else if (strVal (jget body "name")).length > 500 then
    some "Name must be 500 characters or fewer"
  else if !truthy (jget body "category") then
    some "Field category is required"
  else if !isAbsentOrNull (jget body "endYear") ∧ !looksNumber (jget body "endYear") then
    some "Field endYear must be a finite number"
  else if !isAbsentOrNull (jget body "endYear") ∧
      (numVal (jget body "endYear") < -9999 ∨ numVal (jget body "endYear") > 9999) then
    some "End year must be between -9999 and 9999"
  else if !isAbsentOrNull (jget body "description") ∧
      (!looksString (jget body "description") ∨ (strVal (jget body "description")).length > 2000) then
    some "Description must be 2000 characters or fewer"
  else if !isAbsentOrNull (jget body "region") ∧
      (!looksString (jget body "region") ∨ (strVal (jget body "region")).length > 200) then
    some "Region must be 200 characters or fewer"
  else if !categoryIncluded (jget body "category") then
    some "Invalid category"
  else none

/-- The validation chain of PUT /api/events/[id], check for check in
source order: each field is validated only when provided, and the
category only when truthy (the `if (body.category)` guard). -/
def validatePut (body : JObj) : Option String :=
  if !(jget body "year").isNone ∧ !looksNumber (jget body "year") then
    some "Field year must be a finite number"
  else if !(jget body "year").isNone ∧
      (numVal (jget body "year") < -9999 ∨ numVal (jget body "year") > 9999) then
    some "Year must be between -9999 and 9999"
  else if !isAbsentOrNull (jget body "endYear") ∧ !looksNumber (jget body "endYear") then
    some "Field endYear must be a finite number"
  else if !isAbsentOrNull (jget body "endYear") ∧
      (numVal (jget body "endYear") < -9999 ∨ numVal (jget body "endYear") > 9999) then
    some "End year must be between -9999 and 9999"
  else if !(jget body "name").isNone ∧
      (!looksString (jget body "name") ∨ jsTrim (strVal (jget body "name")) = "" ∨
        (strVal (jget body "name")).length > 500) then
    some "Name must be a non-empty string of 500 characters or fewer"
  else if !isAbsentOrNull (jget body "description") ∧
      (!looksString (jget body "description") ∨ (strVal (jget body "description")).length > 2000) then
    some "Description must be 2000 characters or fewer"
  else if !isAbsentOrNull (jget body "region") ∧
      (!looksString (jget body "region") ∨ (strVal (jget body "region")).length > 200) then
    some "Region must be 200 characters or fewer"
  else if truthy (jget body "category") ∧ !categoryIncluded (jget body "category") then
    some "Invalid category"
  else none

/-- The test `e.id === id` used by `findIndex`, `find` and `filter` in
the routes: true exactly when the element's `id` field is the given
string. -/
def isIdMatch (e : JVal) (id : String) : Bool :=
  match e.getField "id" with
  | some (.jstr s) => s == id
  | _ => false

/-- One attempt of the POST closure: read the document (fresh, inside
the closure), build the new event from the validated body with a
generated id, push it onto `events`, and write the whole document back
with the SHA obtained by this attempt's read. -/
def postAttempt (body : JObj) (newId : String) (w : World) :
    AttemptOut JVal :=
  match getEvents w.readStore w.readOk with
  | .error e => ⟨.error e, w.writeStore, 1, 0, none⟩
  | .ok (doc, sha) =>
    match doc with
    | .jobj dfields =>
      match jget dfields "events" with
      | some (.jarr evs) =>
        let newEvent : JVal := .jobj
          [("id", .jstr newId),
           ("year", (jget body "year").getD .jnull),
           ("name", (jget body "name").getD .jnull),
           ("category", (jget body "category").getD .jnull),
           ("endYear", coalesceNull (jget body "endYear")),
           ("region", coalesceNull (jget body "region")),
           ("description", coalesceNull (jget body "description"))]
        let newDoc : JVal := .jobj (jset dfields "events" (.jarr (evs ++ [newEvent])))
        match saveEvents w.writeStore w.writeOk newDoc sha with
        | .error e => ⟨.error e, w.writeStore, 1, 1, some sha⟩
        | .ok (st', _) => ⟨.ok newEvent, st', 1, 1, some sha⟩
      | _ => ⟨.error .typeError, w.writeStore, 1, 0, none⟩
    | _ => ⟨.error .typeError, w.writeStore, 1, 0, none⟩

/-- One attempt of the PUT closure: read the document (fresh, inside the
closure), locate the event by id (`NOT_FOUND` when absent), replace it
by the spread-merge of the existing event with the whole body with `id`
forced back, and write the document back with this attempt's SHA. -/
def putAttempt (id : String) (body : JObj) (w : World) :
    AttemptOut JVal :=
  match getEvents w.readStore w.readOk with
  | .error e => ⟨.error e, w.writeStore, 1, 0, none⟩
  | .ok (doc, sha) =>
    match doc with
    | .jobj dfields =>
      match jget dfields "events" with
      | some (.jarr evs) =>
        match evs.findIdx? (fun e => isIdMatch e id) with
        | none => ⟨.error .notFound, w.writeStore, 1, 0, none⟩
        | some ix =>
          match evs.get? ix with
          | some (.jobj efields) =>
            let merged : JVal := .jobj (jset (jmerge efields body) "id" (.jstr id))
            let newDoc : JVal := .jobj (jset dfields "events" (.jarr (evs.set ix merged)))
            match saveEvents w.writeStore w.writeOk newDoc sha with
            | .error e => ⟨.error e, w.writeStore, 1, 1, some sha⟩
            | .ok (st', _) => ⟨.ok merged, st', 1, 1, some sha⟩
          | _ => ⟨.error .typeError, w.writeStore, 1, 0, none⟩
      | _ => ⟨.error .typeError, w.writeStore, 1, 0, none⟩
    | _ => ⟨.error .typeError, w.writeStore, 1, 0, none⟩

/-- One attempt of the DELETE closure: read the document (fresh, inside
the closure), locate the event by id (`NOT_FOUND` when absent — no write
call in that case), filter it out, and write the document back with this
attempt's SHA. -/
def deleteAttempt (id : String) (w : World) : AttemptOut Unit :=
  match getEvents w.readStore w.readOk with
  | .error e => ⟨.error e, w.writeStore, 1, 0, none⟩
  | .ok (doc, sha) =>
    match doc with
    | .jobj dfields =>
      match jget dfields "events" with
      | some (.jarr evs) =>
        match evs.find? (fun e => isIdMatch e id) with
        | none => ⟨.error .notFound, w.writeStore, 1, 0, none⟩
        | some _ =>
          let evs' := evs.filter (fun e => !isIdMatch e id)
          let newDoc : JVal := .jobj (jset dfields "events" (.jarr evs'))
          match saveEvents w.writeStore w.writeOk newDoc sha with
          | .error e => ⟨.error e, w.writeStore, 1, 1, some sha⟩
          | .ok (st', _) => ⟨.ok (), st', 1, 1, some sha⟩
      | _ => ⟨.error .typeError, w.writeStore, 1, 0, none⟩
    | _ => ⟨.error .typeError, w.writeStore, 1, 0, none⟩

/-- POST /api/events: auth, then the full validation chain, and only
then the retried read-append-write closure; every closure failure maps
to 500. -/
def runPOST (owner : Bool) (env : Nat → World) (maxRetries : Nat)
    (body : JObj) (newId : String) : RouteOut JVal :=
  if !owner then ⟨.unauthorized, (env 0).readStore, 0, 0⟩
  else
    match validateCreate body with
    | some msg => ⟨.badRequest msg, (env 0).readStore, 0, 0⟩
    | none =>
      let r := runAttempts (postAttempt body newId) env 0 maxRetries
      match r.result with
      | .ok v => ⟨.ok v, r.store, r.reads, r.writes⟩
      | .error _ => ⟨.serverError, r.store, r.reads, r.writes⟩

/-- PUT /api/events/[id]: auth, validation of the provided fields, then
the retried read-merge-write closure; a `NOT_FOUND` throw maps to 404,
every other failure to 500. -/
def runPUT (owner : Bool) (env : Nat → World) (maxRetries : Nat)
    (id : String) (body : JObj) : RouteOut JVal :=
  if !owner then ⟨.unauthorized, (env 0).readStore, 0, 0⟩
  else
    match validatePut body with
    | some msg => ⟨.badRequest msg, (env 0).readStore, 0, 0⟩
    | none =>
      let r := runAttempts (putAttempt id body) env 0 maxRetries
      match r.result with
      | .ok v => ⟨.ok v, r.store, r.reads, r.writes⟩
      | .error .notFound => ⟨.notFound, r.store, r.reads, r.writes⟩
      | .error _ => ⟨.serverError, r.store, r.reads, r.writes⟩

/-- DELETE /api/events/[id]: auth, then the retried read-filter-write
closure (no body validation); `NOT_FOUND` maps to 404, every other
failure to 500. -/
def runDELETE (owner : Bool) (env : Nat → World) (maxRetries : Nat)
    (id : String) : RouteOut Unit :=
  if !owner then ⟨.unauthorized, (env 0).readStore, 0, 0⟩
  else
    let r := runAttempts (deleteAttempt id) env 0 maxRetries
    match r.result with
    | .ok _ => ⟨.ok (), r.store, r.reads, r.writes⟩
    | .error .notFound => ⟨.notFound, r.store, r.reads, r.writes⟩
    | .error _ => ⟨.serverError, r.store, r.reads, r.writes⟩

/-- Modelled from the spec, for comparison with the code: the per-event
schema of the data model (id string; year integer in -9999..9999; name
non-empty string of length at most 500; category in the enumeration;
optional endYear, region, description absent, null or well-typed and
within bounds). The source has no counterpart of this check. -/
def specValidEvent : JVal → Bool
  | .jobj fs =>
    looksString (jget fs "id") &&
    looksNumber (jget fs "year") &&
    decide (-9999 ≤ numVal (jget fs "year")) &&
    decide (numVal (jget fs "year") ≤ 9999) &&
    looksString (jget fs "name") &&
    (strVal (jget fs "name") != "") &&
    decide ((strVal (jget fs "name")).length ≤ 500) &&
    categoryIncluded (jget fs "category") &&
    (isAbsentOrNull (jget fs "endYear") ||
      (looksNumber (jget fs "endYear") &&
        decide (-9999 ≤ numVal (jget fs "endYear")) &&
        decide (numVal (jget fs "endYear") ≤ 9999))) &&
    (isAbsentOrNull (jget fs "region") ||
      (looksString (jget fs "region") &&
        decide ((strVal (jget fs "region")).length ≤ 200))) &&
    (isAbsentOrNull (jget fs "description") ||
      (looksString (jget fs "description") &&
        decide ((strVal (jget fs "description")).length ≤ 2000)))
  | _ => false

/-- Modelled from the spec, for comparison with the code: a schema-valid
Event Collection document, shape `\x7b "events": [...] \x7d` with every
element a schema-valid event. -/
def specSchemaValid : JVal → Bool
  | .jobj fs =>
    match jget fs "events" with
    | some (.jarr evs) => evs.all specValidEvent
    | _ => false
  | _ => false

/-- C8 invalidity kind: the year field is not a number (absent or of a
different type). -/
def yearNotNumber (body : JObj) : Prop :=
  ∀ n : Int, jget body "year" ≠ some (.jnum n)

/-- C8 invalidity kind: the year is a number outside -9999..9999. -/
def yearOutOfRange (body : JObj) : Prop :=
  ∃ n : Int, jget body "year" = some (.jnum n) ∧ (n < -9999 ∨ n > 9999)

/-- C8 invalidity kind: the name is an empty (after trimming) or
over-long string. -/
def nameEmptyOrLong (body : JObj) : Prop :=
  ∃ s : String, jget body "name" = some (.jstr s) ∧
    (jsTrim s = "" ∨ s.length > 500)

/-- C8 invalidity kind: the category value is not one of the five
enumeration strings (absent, wrong type, or a string outside the
enumeration). -/
def categoryOutside (body : JObj) : Prop :=
  ∀ c : String, c ∈ validCategoryValues → jget body "category" ≠ some (.jstr c)

/-- C8 invalidity kind: an over-long optional string field. -/
def overlongOptional (body : JObj) : Prop :=
  (∃ s : String, jget body "description" = some (.jstr s) ∧ s.length > 2000) ∨
  (∃ s : String, jget body "region" = some (.jstr s) ∧ s.length > 200)

/-- An invalid create request, in the kinds listed by the claim. -/
def badCreateInput (body : JObj) : Prop :=
  yearNotNumber body ∨ yearOutOfRange body ∨ nameEmptyOrLong body ∨
    categoryOutside body ∨ overlongOptional body

/-- Fixture: the seed event of the spec scenario,
`\x7bid:"1", year:-44, name:"X", category:"event"\x7d`. -/
def sampleEvent : JVal :=
  .jobj [("id", .jstr "1"), ("year", .jnum (-44)), ("name", .jstr "X"),
    ("category", .jstr "event")]

/-- Fixture: the seed document `\x7bevents: [sampleEvent]\x7d`. -/
def sampleDoc : JVal := .jobj [("events", .jarr [sampleEvent])]

/-- Fixture: the seed store holding the seed document at SHA 1. -/
def sampleStore : GHStore := ⟨some sampleDoc, 1⟩

/-- Fixture: a quiescent, healthy environment over the seed store: no
concurrent writer lands between read and write. -/
def sampleWorld : World := ⟨sampleStore, sampleStore, true, true⟩

/-- Fixture: the constant attempt environment for the seed world. -/
def sampleEnv : Nat → World := fun _ => sampleWorld

/-- Fixture for C5: an update body whose category is the empty string, a
provided but falsy value. -/
def emptyCategoryBody : JObj := [("category", .jstr "")]

/-- Fixture for C5: the event stored after the C5 update, with the
out-of-enumeration category value. -/
def emptyCategoryEvent : JVal :=
  .jobj [("id", .jstr "1"), ("year", .jnum (-44)), ("name", .jstr "X"),
    ("category", .jstr "")]

/-- Fixture for C6: the update body of the id-immutability scenario,
`\x7bid: "other-id", name: "X"\x7d`. -/
def otherIdBody : JObj := [("id", .jstr "other-id"), ("name", .jstr "X")]

/-- Fixture for C7: a well-formed JSON document that is not a
schema-valid Event Collection (its events field is a number). -/
def malformedDoc : JVal := .jobj [("events", .jnum 3)]

/-- Fixture for C7: a store holding the malformed document at SHA 7. -/
def malformedStore : GHStore := ⟨some malformedDoc, 7⟩

/-- Fixture for C7: a store whose bytes do not parse as JSON. -/
def unparseableStore : GHStore := ⟨none, 7⟩

/-- Fixture for C8: a create body whose year is a string. -/
def badYearBody : JObj := [("year", .jstr "not-a-number")]

/-- Fixture for C3: a closure outcome trace that loses one race and then
hits a genuinely absent id. -/
def oneConflictThenNotFound : Nat → Except Err Unit :=
  fun i => if i = 0 then .error .conflict else .error .notFound

/-! Helper lemmas about the JSON object operations. -/

theorem jget_jset_self (o : JObj) (k : String) (v : JVal) :
    jget (jset o k v) k = some v := by
  induction o with
  | nil => simp [jset, jget]
  | cons p rest ih =>
    obtain ⟨k', v'⟩ := p
    by_cases h : k' = k
    · simp [jset, h, jget]
    · simp [jset, h, jget, ih]

theorem jget_jset_ne (o : JObj) (k k' : String) (v : JVal) (h : k' ≠ k) :
    jget (jset o k v) k' = jget o k' := by
  induction o with
  | nil => simp [jset, jget, Ne.symm h]
  | cons p rest ih =>
    obtain ⟨k0, v0⟩ := p
    by_cases h0 : k0 = k
    · subst h0
      simp [jset, jget, Ne.symm h, ih]
    · by_cases h1 : k0 = k'
      · simp [jset, h0, jget, h1, h]
      · simp [jset, h0, jget, h1, ih]

theorem jget_eq_none_of_not_mem (o : JObj) (k : String)
    (h : k ∉ o.map Prod.fst) : jget o k = none := by
  induction o with
  | nil => rfl
  | cons p rest ih =>
    obtain ⟨k0, v0⟩ := p
    simp only [List.map_cons, List.mem_cons] at h
    push_neg at h
    simp [jget, Ne.symm h.1, ih h.2]

theorem jget_jmerge_not_mem (extra : JObj) (k : String)
    (h : k ∉ extra.map Prod.fst) :
    ∀ base : JObj, jget (jmerge base extra) k = jget base k := by
  induction extra with
  | nil => intro base; rfl
  | cons p rest ih =>
    intro base
    obtain ⟨k0, v0⟩ := p
    simp only [List.map_cons, List.mem_cons] at h
    push_neg at h
    have step : jmerge base ((k0, v0) :: rest) = jmerge (jset base k0 v0) rest := rfl
    rw [step, ih h.2, jget_jset_ne _ _ _ _ h.1]

theorem jget_jmerge_of_mem (extra : JObj) (k : String) (v : JVal)
    (hnd : (extra.map Prod.fst).Nodup) (h : jget extra k = some v) :
    ∀ base : JObj, jget (jmerge base extra) k = some v := by
  induction extra with
  | nil => simp [jget] at h
  | cons p rest ih =>
    intro base
    obtain ⟨k0, v0⟩ := p
    simp only [List.map_cons, List.nodup_cons] at hnd
    have step : jmerge base ((k0, v0) :: rest) = jmerge (jset base k0 v0) rest := rfl
    rw [step]
    by_cases hk : k0 = k
    · subst hk
      have hv : v0 = v := by simpa [jget] using h
      rw [jget_jmerge_not_mem rest k0 hnd.1, jget_jset_self, hv]
    · have h' : jget rest k = some v := by simpa [jget, hk] using h
      exact ih hnd.2 h' (jset base k0 v0)

/-! Inversion lemmas for the JS type checks. -/

theorem looksNumber_iff (x : Option JVal) :
    looksNumber x = true ↔ ∃ n : Int, x = some (.jnum n) := by
  cases x with
  | none => simp [looksNumber]
  | some v => cases v <;> simp [looksNumber]

theorem looksString_iff (x : Option JVal) :
    looksString x = true ↔ ∃ s : String, x = some (.jstr s) := by
  cases x with
  | none => simp [looksString]
  | some v => cases v <;> simp [looksString]

theorem categoryIncluded_iff (x : Option JVal) :
    categoryIncluded x = true ↔
      ∃ s : String, x = some (.jstr s) ∧ s ∈ validCategoryValues := by
  cases x with
  | none => simp [categoryIncluded]
  | some v => cases v <;> simp [categoryIncluded]

/-! Equation lemmas for the retry loop. -/

theorem withRetryGo_of_ok {α : Type} (fn : Nat → Except Err α)
    (attempt remaining : Nat) (v : α) (h : fn attempt = .ok v) :
    withRetryGo fn attempt remaining = (.ok v, 1) := by
  rw [withRetryGo.eq_def]
  cases remaining <;> simp [h]

theorem withRetryGo_of_err_zero {α : Type} (fn : Nat → Except Err α)
    (attempt : Nat) (e : Err) (h : fn attempt = .error e) :
    withRetryGo fn attempt 0 = (.error e, 1) := by
  rw [withRetryGo.eq_def]
  simp [h]

theorem withRetryGo_of_conflict {α : Type} (fn : Nat → Except Err α)
    (attempt r : Nat) (e : Err) (h : fn attempt = .error e)
    (hc : e.isConflict = true) :
    withRetryGo fn attempt (r + 1) =
      ((withRetryGo fn (attempt + 1) r).1, (withRetryGo fn (attempt + 1) r).2 + 1) := by
  rw [withRetryGo.eq_def]
  simp [h, hc]

theorem withRetryGo_of_nonconflict {α : Type} (fn : Nat → Except Err α)
    (attempt remaining : Nat) (e : Err) (h : fn attempt = .error e)
    (hc : e.isConflict = false) :
    withRetryGo fn attempt remaining = (.error e, 1) := by
  rw [withRetryGo.eq_def]
  cases remaining <;> simp [h, hc]

/-! Behavioural lemmas for the retry loop. -/

theorem withRetryGo_calls_le {α : Type} (fn : Nat → Except Err α) :
    ∀ remaining attempt, (withRetryGo fn attempt remaining).2 ≤ remaining + 1 := by
  intro remaining
  induction remaining with
  | zero =>
    intro attempt
    cases h : fn attempt with
    | ok v => simp [withRetryGo_of_ok fn attempt 0 v h]
    | error e => simp [withRetryGo_of_err_zero fn attempt e h]
  | succ r ih =>
    intro attempt
    cases h : fn attempt with
    | ok v => simp [withRetryGo_of_ok fn attempt (r + 1) v h]
    | error e =>
      cases hc : e.isConflict with
      | true =>
        rw [withRetryGo_of_conflict fn attempt r e h hc]
        have := ih (attempt + 1)
        simpa using Nat.add_le_add_right this 1
      | false =>
        simp [withRetryGo_of_nonconflict fn attempt (r + 1) e h hc]

theorem withRetryGo_all_conflict {α : Type} (fn : Nat → Except Err α)
    (h : ∀ i, fn i = .error .conflict) :
    ∀ remaining attempt,
      withRetryGo fn attempt remaining = (.error .conflict, remaining + 1) := by
  intro remaining
  induction remaining with
  | zero =>
    intro attempt
    exact withRetryGo_of_err_zero fn attempt .conflict (h attempt)
  | succ r ih =>
    intro attempt
    rw [withRetryGo_of_conflict fn attempt r .conflict (h attempt) rfl, ih (attempt + 1)]

theorem withRetryGo_stops_at_nonconflict {α : Type} (fn : Nat → Except Err α)
    (e : Err) (he : e.isConflict = false) :
    ∀ (j remaining attempt : Nat), j ≤ remaining →
      (∀ i, i < j → fn (attempt + i) = .error .conflict) →
      fn (attempt + j) = .error e →
      withRetryGo fn attempt remaining = (.error e, j + 1) := by
  intro j
  induction j with
  | zero =>
    intro remaining attempt _ _ hj
    exact withRetryGo_of_nonconflict fn attempt remaining e (by simpa using hj) he
  | succ n ih =>
    intro remaining attempt hle hconf hj
    cases remaining with
    | zero => omega
    | succ r =>
      have h0 : fn attempt = .error .conflict := by
        simpa using hconf 0 (Nat.succ_pos n)
      rw [withRetryGo_of_conflict fn attempt r .conflict h0 rfl]
      have hconf' : ∀ i, i < n → fn (attempt + 1 + i) = .error .conflict := by
        intro i hi
        have := hconf (i + 1) (by omega)
        have harith : attempt + (i + 1) = attempt + 1 + i := by omega
        rwa [harith] at this
      have hj' : fn (attempt + 1 + n) = .error e := by
        have harith : attempt + (n + 1) = attempt + 1 + n := by omega
        rwa [harith] at hj
      rw [ih r (attempt + 1) (by omega) hconf' hj']

/-! Equation lemmas for the effectful retry loop. -/

theorem runAttempts_of_ok {α : Type} (attempt : World → AttemptOut α)
    (env : Nat → World) (i remaining : Nat) (v : α)
    (h : (attempt (env i)).result = .ok v) :
    runAttempts attempt env i remaining =
      ⟨.ok v, (attempt (env i)).store, 1, (attempt (env i)).reads,
        (attempt (env i)).writes⟩ := by
  rw [runAttempts.eq_def]
  cases remaining <;> simp [h]

theorem runAttempts_of_nonconflict {α : Type} (attempt : World → AttemptOut α)
    (env : Nat → World) (i remaining : Nat) (e : Err)
    (h : (attempt (env i)).result = .error e) (hc : e.isConflict = false) :
    runAttempts attempt env i remaining =
      ⟨.error e, (attempt (env i)).store, 1, (attempt (env i)).reads,
        (attempt (env i)).writes⟩ := by
  rw [runAttempts.eq_def]
  cases remaining <;> simp [h, hc]

theorem runAttempts_of_conflict {α : Type} (attempt : World → AttemptOut α)
    (env : Nat → World) (i r : Nat) (e : Err)
    (h : (attempt (env i)).result = .error e) (hc : e.isConflict = true) :
    runAttempts attempt env i (r + 1) =
      ⟨(runAttempts attempt env (i + 1) r).result,
        (runAttempts attempt env (i + 1) r).store,
        (runAttempts attempt env (i + 1) r).invocations + 1,
        (attempt (env i)).reads + (runAttempts attempt env (i + 1) r).reads,
        (attempt (env i)).writes + (runAttempts attempt env (i + 1) r).writes⟩ := by
  rw [runAttempts.eq_def]
  simp [h, hc]

/-- The effectful retry loop decides exactly as `withRetry` does on the
per-attempt outcomes, with the same number of invocations: the routes
run the same retry policy as the wrapper. -/
theorem runAttempts_agrees_withRetry {α : Type} (attempt : World → AttemptOut α)
    (env : Nat → World) :
    ∀ remaining i,
      (runAttempts attempt env i remaining).result =
        (withRetryGo (fun j => (attempt (env j)).result) i remaining).1 ∧
      (runAttempts attempt env i remaining).invocations =
        (withRetryGo (fun j => (attempt (env j)).result) i remaining).2 := by
  intro remaining
  induction remaining with
  | zero =>
    intro i
    cases h : (attempt (env i)).result with
    | ok v =>
      rw [runAttempts_of_ok attempt env i 0 v h,
        withRetryGo_of_ok (fun j => (attempt (env j)).result) i 0 v h]
      exact ⟨rfl, rfl⟩
    | error e =>
      rw [runAttempts.eq_def, withRetryGo_of_err_zero (fun j => (attempt (env j)).result) i e h]
      simp [h]
  | succ r ih =>
    intro i
    cases h : (attempt (env i)).result with
    | ok v =>
      rw [runAttempts_of_ok attempt env i (r + 1) v h,
        withRetryGo_of_ok (fun j => (attempt (env j)).result) i (r + 1) v h]
      exact ⟨rfl, rfl⟩
    | error e =>
      cases hc : e.isConflict with
      | true =>
        rw [runAttempts_of_conflict attempt env i r e h hc,
          withRetryGo_of_conflict (fun j => (attempt (env j)).result) i r e h hc]
        have := ih (i + 1)
        exact ⟨this.1, by simpa using this.2⟩
      | false =>
        rw [runAttempts_of_nonconflict attempt env i (r + 1) e h hc,
          withRetryGo_of_nonconflict (fun j => (attempt (env j)).result) i (r + 1) e h hc]
        exact ⟨rfl, rfl⟩

/-! Inversion lemmas for the store client. -/

theorem getEvents_ok_inv (st : GHStore) (ok : Bool) (v : JVal) (s : Nat)
    (h : getEvents st ok = .ok (v, s)) :
    ok = true ∧ st.content = some v ∧ s = st.sha := by
  cases ok with
  | false => simp [getEvents] at h
  | true =>
    cases hc : st.content with
    | none => simp [getEvents, hc] at h
    | some d =>
      simp [getEvents, hc] at h
      exact ⟨rfl, by simp [hc, h.1], h.2.symm⟩

theorem getEvents_err_inv (st : GHStore) (ok : Bool) (e : Err)
    (h : getEvents st ok = .error e) :
    e = .storeUnavailable ∨ e = .parseFailure := by
  cases ok with
  | false =>
    simp [getEvents] at h
    exact Or.inl h.symm
  | true =>
    cases hc : st.content with
    | none =>
      simp [getEvents, hc] at h
      exact Or.inr h.symm
    | some d => simp [getEvents, hc] at h

theorem saveEvents_conflict_inv (st : GHStore) (healthy : Bool) (doc : JVal)
    (sha : Nat) (h : saveEvents st healthy doc sha = .error .conflict) :
    sha ≠ st.sha := by
  intro hsha
  subst hsha
  simp [saveEvents, ghPutStatus] at h
  cases healthy <;> simp_all

theorem saveEvents_current_ok (st : GHStore) (doc : JVal) :
    saveEvents st true doc st.sha =
      .ok (⟨some doc, st.sha + 1⟩, st.sha + 1) := by
  simp [saveEvents, ghPutStatus]

/-! Characterizations of the mutation closures. -/

theorem putAttempt_found (id : String) (body : JObj) (w : World)
    (hro : w.readOk = true) (hwo : w.writeOk = true)
    (hws : w.writeStore = w.readStore)
    (dfields : JObj) (hc : w.readStore.content = some (.jobj dfields))
    (evs : List JVal) (hevs : jget dfields "events" = some (.jarr evs))
    (ix : Nat) (hix : evs.findIdx? (fun e => isIdMatch e id) = some ix)
    (efields : JObj) (he : evs[ix]? = some (.jobj efields)) :
    putAttempt id body w =
      ⟨.ok (.jobj (jset (jmerge efields body) "id" (.jstr id))),
        ⟨some (.jobj (jset dfields "events"
          (.jarr (evs.set ix (.jobj (jset (jmerge efields body) "id" (.jstr id))))))),
          w.readStore.sha + 1⟩,
        1, 1, some w.readStore.sha⟩ := by
  unfold putAttempt
  simp [getEvents, hro, hc, hevs, hix, he, hws, hwo, saveEvents_current_ok,
    List.get?_eq_getElem?]

theorem deleteAttempt_missing (id : String) (w : World)
    (hro : w.readOk = true)
    (dfields : JObj) (hc : w.readStore.content = some (.jobj dfields))
    (evs : List JVal) (hevs : jget dfields "events" = some (.jarr evs))
    (hnone : ∀ e ∈ evs, isIdMatch e id = false) :
    deleteAttempt id w = ⟨.error .notFound, w.writeStore, 1, 0, none⟩ := by
  have hfind : evs.find? (fun e => isIdMatch e id) = none := by
    rw [List.find?_eq_none]
    intro x hx
    simp [hnone x hx]
  unfold deleteAttempt
  simp [getEvents, hro, hc, hevs, hfind]

/-! Claim C2. -/

/-- C2: for every operation and every retry budget, `withRetry` invokes
the operation at most `maxRetries + 1` times; when every invocation
fails with a version conflict, it is invoked exactly `maxRetries + 1`
times and the final outcome is the terminal conflict failure. -/
theorem withRetry_attempt_budget {α : Type} (fn : Nat → Except Err α)
    (maxRetries : Nat) :
    withRetryCalls fn maxRetries ≤ maxRetries + 1 ∧
      ((∀ i, fn i = .error .conflict) →
        withRetry fn maxRetries = .error .conflict ∧
          withRetryCalls fn maxRetries = maxRetries + 1) := by
  constructor
  · exact withRetryGo_calls_le fn maxRetries 0
  · intro h
    unfold withRetry withRetryCalls
    rw [withRetryGo_all_conflict fn h maxRetries 0]
    exact ⟨rfl, rfl⟩

/-- Witness for C2 at a concrete all-conflict operation and the default
budget of 3 retries. -/
theorem withRetry_attempt_budget_witness :
    withRetry (fun _ => (.error .conflict : Except Err Unit)) 3 = .error .conflict ∧
      withRetryCalls (fun _ => (.error .conflict : Except Err Unit)) 3 = 4 := by
  have h := (withRetry_attempt_budget (fun _ => (.error .conflict : Except Err Unit)) 3).2
    (fun _ => rfl)
  exact ⟨h.1, h.2⟩

/-! Claim C3. -/

/-- C3: only version conflicts are retried: when the first `j` attempts
are conflicts and attempt `j` fails with any non-conflict error — store
unavailable, a thrown validation failure, or `NOT_FOUND` raised inside
the closure — that error is the final outcome and no further invocation
of the operation happens (exactly `j + 1` invocations in total). -/
theorem withRetry_nonconflict_immediate {α : Type} (fn : Nat → Except Err α)
    (maxRetries j : Nat) (e : Err) (hj : j ≤ maxRetries)
    (hpre : ∀ i, i < j → fn i = .error .conflict)
    (hf : fn j = .error e) (he : e.isConflict = false) :
    withRetry fn maxRetries = .error e ∧
      withRetryCalls fn maxRetries = j + 1 := by
  have h := withRetryGo_stops_at_nonconflict fn e he j maxRetries 0 hj
    (by intro i hi; simpa using hpre i hi) (by simpa using hf)
  unfold withRetry withRetryCalls
  rw [h]
  exact ⟨rfl, rfl⟩

/-- Witness for C3: one lost race followed by `NOT_FOUND` stops the loop
after the second invocation. -/
theorem withRetry_nonconflict_immediate_witness :
    withRetry oneConflictThenNotFound 3 = .error .notFound ∧
      withRetryCalls oneConflictThenNotFound 3 = 2 := by
  have h := withRetry_nonconflict_immediate oneConflictThenNotFound 3 1 .notFound
    (by omega)
    (by intro i hi; interval_cases i; rfl)
    (by rfl) (by rfl)
  exact h

/-! Claim C4. -/

/-- C4: a write whose supplied token does not match the store's current
token fails with the version conflict error, whatever the payload; with
a current token, any other non-success outcome is the distinct
store-unavailable error; on success the document is replaced and a new
version token is returned. -/
theorem saveEvents_version_semantics (st : GHStore) (healthy : Bool)
    (doc : JVal) (sha : Nat) :
    (sha ≠ st.sha → saveEvents st healthy doc sha = .error .conflict) ∧
    (sha = st.sha → healthy = false →
      saveEvents st healthy doc sha = .error .storeUnavailable ∧
        (Err.storeUnavailable ≠ Err.conflict)) ∧
    (sha = st.sha → healthy = true →
      saveEvents st healthy doc sha = .ok (⟨some doc, st.sha + 1⟩, st.sha + 1) ∧
        st.sha + 1 ≠ sha) := by
  refine ⟨?_, ?_, ?_⟩
  · intro h
    simp [saveEvents, ghPutStatus, h]
  · intro h hh
    subst h hh
    exact ⟨by simp [saveEvents, ghPutStatus], by simp⟩
  · intro h hh
    subst h hh
    exact ⟨saveEvents_current_ok st doc, by omega⟩

/-- Witness for C4 on the seed store: a stale token (0 instead of 1) is
a conflict for any payload; with the current token, an unhealthy remote
is store-unavailable and a healthy one succeeds with a fresh token. -/
theorem saveEvents_version_semantics_witness :
    saveEvents sampleStore true malformedDoc 0 = .error .conflict ∧
      saveEvents sampleStore false sampleDoc 1 = .error .storeUnavailable ∧
      saveEvents sampleStore true sampleDoc 1 = .ok (⟨some sampleDoc, 2⟩, 2) := by
  refine ⟨(saveEvents_version_semantics sampleStore true malformedDoc 0).1 (by decide),
    ((saveEvents_version_semantics sampleStore false sampleDoc 1).2.1 rfl rfl).1, ?_⟩
  exact ((saveEvents_version_semantics sampleStore true sampleDoc 1).2.2 rfl rfl).1

/-! Claim C7. -/

/-- C7 counterexample: a well-formed JSON document that is not a
schema-valid Event Collection is returned by a successful read as-is —
the read neither fails nor filters it, contradicting the claim that a
successful read always yields a schema-valid collection. -/
theorem getEvents_returns_schema_invalid :
    getEvents malformedStore true = .ok (malformedDoc, 7) ∧
      specSchemaValid malformedDoc = false := by
  exact ⟨rfl, rfl⟩

/-- C7 amended: a successful read returns the remote document exactly as
parsed together with the store's current token; a document that does not
parse as JSON is a fatal read failure, and an unavailable remote is the
store-unavailable failure. No schema validation happens on read. -/
theorem getEvents_parse_semantics (st : GHStore) (ok : Bool) :
    (ok = false → getEvents st ok = .error .storeUnavailable) ∧
    (ok = true → st.content = none → getEvents st ok = .error .parseFailure) ∧
    (∀ v, ok = true → st.content = some v → getEvents st ok = .ok (v, st.sha)) := by
  refine ⟨?_, ?_, ?_⟩
  · intro h; subst h; rfl
  · intro h hc; subst h; simp [getEvents, hc]
  · intro v h hc; subst h; simp [getEvents, hc]

/-- Witness for C7 amended: an unparseable document is a fatal parse
failure, an unavailable remote is store-unavailable, and the malformed
but parseable document is returned verbatim. -/
theorem getEvents_parse_semantics_witness :
    getEvents unparseableStore true = .error .parseFailure ∧
      getEvents malformedStore false = .error .storeUnavailable ∧
      getEvents malformedStore true = .ok (malformedDoc, malformedStore.sha) := by
  exact ⟨(getEvents_parse_semantics unparseableStore true).2.1 rfl rfl,
    (getEvents_parse_semantics malformedStore false).1 rfl,
    (getEvents_parse_semantics malformedStore true).2.2 malformedDoc rfl rfl⟩

/-! Freshness of the token used by the mutation closures (create,
update and delete). -/

theorem putAttempt_suppliedSha (id : String) (body : JObj) (w : World) (s : Nat)
    (hs : (putAttempt id body w).suppliedSha = some s) : s = w.readStore.sha := by
  unfold putAttempt at hs
  split at hs
  · simp at hs
  · rename_i doc sha heq
    obtain ⟨-, -, hsha⟩ := getEvents_ok_inv _ _ _ _ heq
    subst hsha
    repeat' split at hs
    all_goals try simp_all
    all_goals (split at hs <;> simp_all)

theorem putAttempt_consistent_no_conflict (id : String) (body : JObj) (w : World)
    (hws : w.writeStore = w.readStore) :
    (putAttempt id body w).result ≠ .error .conflict := by
  intro hcon
  unfold putAttempt at hcon
  split at hcon
  · rename_i e heq
    rcases getEvents_err_inv _ _ _ heq with h | h <;> simp_all
  · rename_i doc sha heq
    obtain ⟨-, -, hsha⟩ := getEvents_ok_inv _ _ _ _ heq
    subst hsha
    repeat' split at hcon
    all_goals try simp_all
    all_goals split at hcon
    all_goals simp_all
    all_goals rename_i hsv
    all_goals exact absurd rfl (saveEvents_conflict_inv _ _ _ _ hsv)

theorem postAttempt_suppliedSha (body : JObj) (newId : String) (w : World)
    (s : Nat) (hs : (postAttempt body newId w).suppliedSha = some s) :
    s = w.readStore.sha := by
  unfold postAttempt at hs
  split at hs
  · simp at hs
  · rename_i doc sha heq
    obtain ⟨-, -, hsha⟩ := getEvents_ok_inv _ _ _ _ heq
    subst hsha
    repeat' split at hs
    all_goals try simp_all
    all_goals (split at hs <;> simp_all)

theorem postAttempt_consistent_no_conflict (body : JObj) (newId : String)
    (w : World) (hws : w.writeStore = w.readStore) :
    (postAttempt body newId w).result ≠ .error .conflict := by
  intro hcon
  unfold postAttempt at hcon
  split at hcon
  · rename_i e heq
    rcases getEvents_err_inv _ _ _ heq with h | h <;> simp_all
  · rename_i doc sha heq
    obtain ⟨-, -, hsha⟩ := getEvents_ok_inv _ _ _ _ heq
    subst hsha
    repeat' split at hcon
    all_goals try simp_all
    all_goals split at hcon
    all_goals simp_all
    all_goals rename_i hsv
    all_goals exact absurd rfl (saveEvents_conflict_inv _ _ _ _ hsv)

theorem deleteAttempt_suppliedSha (id : String) (w : World) (s : Nat)
    (hs : (deleteAttempt id w).suppliedSha = some s) : s = w.readStore.sha := by
  unfold deleteAttempt at hs
  split at hs
  · simp at hs
  · rename_i doc sha heq
    obtain ⟨-, -, hsha⟩ := getEvents_ok_inv _ _ _ _ heq
    subst hsha
    repeat' split at hs
    all_goals try simp_all
    all_goals (split at hs <;> simp_all)

theorem deleteAttempt_consistent_no_conflict (id : String) (w : World)
    (hws : w.writeStore = w.readStore) :
    (deleteAttempt id w).result ≠ .error .conflict := by
  intro hcon
  unfold deleteAttempt at hcon
  split at hcon
  · rename_i e heq
    rcases getEvents_err_inv _ _ _ heq with h | h <;> simp_all
  · rename_i doc sha heq
    obtain ⟨-, -, hsha⟩ := getEvents_ok_inv _ _ _ _ heq
    subst hsha
    repeat' split at hcon
    all_goals try simp_all
    all_goals split at hcon
    all_goals simp_all
    all_goals rename_i hsv
    all_goals exact absurd rfl (saveEvents_conflict_inv _ _ _ _ hsv)

/-! Structural token freshness of the mutation closures. These facts
are what the source text itself guarantees about the retry loop: the
token supplied to a write is the one returned by the same attempt's
read. Whether that read is in turn satisfied by the framework's fetch
data cache (getEvents requests `next: \x7btags: ["events"], revalidate:
3600\x7d`) is decided inside the framework's fetch layer, outside this
repository, and is not modelled here: the `World` environments quantify
over whatever store state a read observes. -/

/-- Structural freshness of the update closure: the version token an
attempt supplies to its write is exactly the token returned by that
attempt's own read (never a token from an earlier attempt); when the
read observes the store's current state, the attempt can never fail
with a version conflict; and after a conflict the loop re-runs the
whole closure against the next attempt's environment. -/
theorem retry_reads_are_fresh (id : String) (body : JObj) (env : Nat → World)
    (i : Nat) :
    (∀ s : Nat, (putAttempt id body (env i)).suppliedSha = some s →
      s = (env i).readStore.sha) ∧
    ((env i).writeStore = (env i).readStore →
      (putAttempt id body (env i)).result ≠ .error .conflict) ∧
    (∀ r : Nat, (putAttempt id body (env i)).result = .error .conflict →
      (runAttempts (putAttempt id body) env i (r + 1)).result =
        (runAttempts (putAttempt id body) env (i + 1) r).result) := by
  refine ⟨?_, ?_, ?_⟩
  · intro s hs
    exact putAttempt_suppliedSha id body (env i) s hs
  · intro hws
    exact putAttempt_consistent_no_conflict id body (env i) hws
  · intro r hcon
    rw [runAttempts_of_conflict (putAttempt id body) env i r .conflict hcon rfl]

/-- Concrete instance of the freshness facts on the seed world: the
update attempt supplies exactly the token its own read produced, and in
a quiescent world it does not conflict. -/
theorem retry_reads_are_fresh_witness :
    (putAttempt "1" otherIdBody (sampleEnv 0)).suppliedSha =
        some ((sampleEnv 0).readStore.sha) ∧
      (putAttempt "1" otherIdBody (sampleEnv 0)).result ≠ .error .conflict := by
  have h := retry_reads_are_fresh "1" otherIdBody sampleEnv 0
  have hs : (putAttempt "1" otherIdBody (sampleEnv 0)).suppliedSha = some 1 := rfl
  exact ⟨hs.trans (congrArg some (h.1 1 hs)), h.2.1 rfl⟩

/-! Claim C6. -/

/-- C6: an update of an existing event always keeps the original id —
the merged event is the existing event overwritten by the body with the
`id` field forced back to the path id, whatever the body contains — and
that updated event is what the route returns. -/
theorem update_preserves_id (w : World) (maxRetries : Nat) (id : String)
    (body : JObj)
    (hval : validatePut body = none)
    (hro : w.readOk = true) (hwo : w.writeOk = true)
    (hws : w.writeStore = w.readStore)
    (dfields : JObj) (hc : w.readStore.content = some (.jobj dfields))
    (evs : List JVal) (hevs : jget dfields "events" = some (.jarr evs))
    (ix : Nat) (hix : evs.findIdx? (fun e => isIdMatch e id) = some ix)
    (efields : JObj) (he : evs[ix]? = some (.jobj efields)) :
    (runPUT true (fun _ => w) maxRetries id body).response =
        .ok (.jobj (jset (jmerge efields body) "id" (.jstr id))) ∧
      JVal.getField (.jobj (jset (jmerge efields body) "id" (.jstr id))) "id" =
        some (.jstr id) := by
  have hp := putAttempt_found id body w hro hwo hws dfields hc evs hevs ix hix efields he
  constructor
  · unfold runPUT
    rw [runAttempts_of_ok (putAttempt id body) (fun _ => w) 0 maxRetries
      (.jobj (jset (jmerge efields body) "id" (.jstr id))) (by rw [hp])]
    simp [hval]
  · simp [JVal.getField, jget_jset_self]

/-- Witness for C6: the spec scenario `Update("1", \x7bid: "other-id",
name: "X"\x7d)` on the seed collection returns an event whose id is
still `"1"`. -/
theorem update_preserves_id_witness :
    (runPUT true sampleEnv 3 "1" otherIdBody).response =
        .ok (.jobj (jset (jmerge
          [("id", .jstr "1"), ("year", .jnum (-44)), ("name", .jstr "X"),
            ("category", .jstr "event")] otherIdBody) "id" (.jstr "1"))) ∧
      JVal.getField (.jobj (jset (jmerge
          [("id", .jstr "1"), ("year", .jnum (-44)), ("name", .jstr "X"),
            ("category", .jstr "event")] otherIdBody) "id" (.jstr "1"))) "id" =
        some (.jstr "1") := by
  exact update_preserves_id sampleWorld 3 "1" otherIdBody (by decide) rfl rfl rfl
    [("events", .jarr [sampleEvent])] rfl [sampleEvent] rfl 0 (by decide)
    [("id", .jstr "1"), ("year", .jnum (-44)), ("name", .jstr "X"),
      ("category", .jstr "event")] rfl

/-! Claim C9. -/

/-- C9: deleting an id that is absent from the current collection
answers 404 and leaves the store untouched: one read, zero write calls,
and the store is exactly the one the request started from. -/
theorem delete_missing_id_no_write (w : World) (maxRetries : Nat) (id : String)
    (hro : w.readOk = true) (hws : w.writeStore = w.readStore)
    (dfields : JObj) (hc : w.readStore.content = some (.jobj dfields))
    (evs : List JVal) (hevs : jget dfields "events" = some (.jarr evs))
    (hnone : ∀ e ∈ evs, isIdMatch e id = false) :
    runDELETE true (fun _ => w) maxRetries id =
      ⟨.notFound, w.readStore, 1, 0⟩ := by
  have hd := deleteAttempt_missing id w hro dfields hc evs hevs hnone
  unfold runDELETE
  rw [runAttempts_of_nonconflict (deleteAttempt id) (fun _ => w) 0 maxRetries
    .notFound (by rw [hd]) rfl]
  simp [hd, hws]

/-- Witness for C9: `Delete("missing-id")` on the non-empty seed
collection is `NotFound` with the document unchanged and no write
issued. -/
theorem delete_missing_id_no_write_witness :
    runDELETE true sampleEnv 3 "missing-id" = ⟨.notFound, sampleStore, 1, 0⟩ := by
  have h := delete_missing_id_no_write sampleWorld 3 "missing-id" rfl rfl
    [("events", .jarr [sampleEvent])] rfl [sampleEvent] rfl
    (by intro e he; simp at he; subst he; decide)
  exact h

/-! Claim C5. -/

/-- C5 is violated by the code: the PUT validation guards the category
check with JS truthiness (`if (body.category)`), so a provided but falsy
category — the empty string — passes validation, and the merge then
persists it: the route succeeds (200, one write) and the stored event's
category is `""`, which is outside the five-value enumeration. -/
theorem put_stores_empty_category :
    validatePut emptyCategoryBody = none ∧
    runPUT true sampleEnv 3 "1" emptyCategoryBody =
      ⟨.ok emptyCategoryEvent,
        ⟨some (.jobj [("events", .jarr [emptyCategoryEvent])]), 2⟩, 1, 1⟩ ∧
    categoryIncluded (emptyCategoryEvent.getField "category") = false := by
  refine ⟨by decide, ?_, by decide⟩
  have hres : (putAttempt "1" emptyCategoryBody (sampleEnv 0)).result =
      .ok emptyCategoryEvent := rfl
  unfold runPUT
  rw [runAttempts_of_ok (putAttempt "1" emptyCategoryBody) sampleEnv 0 3
    emptyCategoryEvent hres]
  rfl

/-! Claim C10. -/

theorem not_mem_of_jget_eq_none (o : JObj) (k : String) (h : jget o k = none) :
    k ∉ o.map Prod.fst := by
  induction o with
  | nil => simp
  | cons p rest ih =>
    obtain ⟨k0, v0⟩ := p
    by_cases hk : k0 = k
    · simp [jget, hk] at h
    · simp only [jget, hk, if_false] at h
      simp only [List.map_cons, List.mem_cons]
      push_neg
      exact ⟨fun hh => hk hh.symm, ih h⟩

/-- C10: an update stores the key-by-key spread-merge of the existing
event with the whole request body: the document's event becomes exactly
that merge with only `id` restored; every key of the body other than
`id` — whitelisted or not — is persisted verbatim, and every key absent
from the body keeps its existing value. -/
theorem update_merges_body_verbatim (w : World) (maxRetries : Nat) (id : String)
    (body : JObj) (hnd : (body.map Prod.fst).Nodup)
    (hval : validatePut body = none)
    (hro : w.readOk = true) (hwo : w.writeOk = true)
    (hws : w.writeStore = w.readStore)
    (dfields : JObj) (hc : w.readStore.content = some (.jobj dfields))
    (evs : List JVal) (hevs : jget dfields "events" = some (.jarr evs))
    (ix : Nat) (hix : evs.findIdx? (fun e => isIdMatch e id) = some ix)
    (efields : JObj) (he : evs[ix]? = some (.jobj efields)) :
    (runPUT true (fun _ => w) maxRetries id body).store.content =
        some (.jobj (jset dfields "events"
          (.jarr (evs.set ix (.jobj (jset (jmerge efields body) "id" (.jstr id))))))) ∧
      jget (jset (jmerge efields body) "id" (.jstr id)) "id" = some (.jstr id) ∧
      (∀ k : String, k ≠ "id" → ∀ v : JVal, jget body k = some v →
        jget (jset (jmerge efields body) "id" (.jstr id)) k = some v) ∧
      (∀ k : String, k ≠ "id" → jget body k = none →
        jget (jset (jmerge efields body) "id" (.jstr id)) k = jget efields k) := by
  have hp := putAttempt_found id body w hro hwo hws dfields hc evs hevs ix hix efields he
  refine ⟨?_, jget_jset_self _ _ _, ?_, ?_⟩
  · unfold runPUT
    rw [runAttempts_of_ok (putAttempt id body) (fun _ => w) 0 maxRetries
      (.jobj (jset (jmerge efields body) "id" (.jstr id))) (by rw [hp])]
    simp [hval, hp]
  · intro k hk v hv
    rw [jget_jset_ne _ _ _ _ hk]
    exact jget_jmerge_of_mem body k v hnd hv efields
  · intro k hk hv
    rw [jget_jset_ne _ _ _ _ hk]
    exact jget_jmerge_not_mem body k (not_mem_of_jget_eq_none body k hv) efields

/-- Witness for C10: updating the seed event with `\x7bid: "other-id",
name: "X"\x7d` persists the merged event into the document; `name` is
taken verbatim from the body and `year` keeps its stored value. -/
theorem update_merges_body_verbatim_witness :
    (runPUT true sampleEnv 3 "1" otherIdBody).store.content =
        some (.jobj (jset [("events", .jarr [sampleEvent])] "events"
          (.jarr ([sampleEvent].set 0 (.jobj (jset (jmerge
            [("id", .jstr "1"), ("year", .jnum (-44)), ("name", .jstr "X"),
              ("category", .jstr "event")] otherIdBody) "id" (.jstr "1"))))))) ∧
      jget (jset (jmerge
          [("id", .jstr "1"), ("year", .jnum (-44)), ("name", .jstr "X"),
            ("category", .jstr "event")] otherIdBody) "id" (.jstr "1")) "name" =
        some (.jstr "X") ∧
      jget (jset (jmerge
          [("id", .jstr "1"), ("year", .jnum (-44)), ("name", .jstr "X"),
            ("category", .jstr "event")] otherIdBody) "id" (.jstr "1")) "year" =
        jget [("id", .jstr "1"), ("year", .jnum (-44)), ("name", .jstr "X"),
          ("category", .jstr "event")] "year" := by
  have h := update_merges_body_verbatim sampleWorld 3 "1" otherIdBody
    (by decide) (by decide) rfl rfl rfl
    [("events", .jarr [sampleEvent])] rfl [sampleEvent] rfl 0 (by decide)
    [("id", .jstr "1"), ("year", .jnum (-44)), ("name", .jstr "X"),
      ("category", .jstr "event")] rfl
  exact ⟨h.1, h.2.2.1 "name" (by decide) (.jstr "X") rfl,
    h.2.2.2 "year" (by decide) rfl⟩

/-! Claim C8. -/

set_option maxHeartbeats 2000000 in
/-- C8: an invalid create request — non-numeric or out-of-range year,
empty or over-long name, category outside the enumeration, or an
over-long optional string — is answered with a validation failure
before the retry loop is entered: zero store reads and zero store
writes are issued. -/
theorem create_validation_before_io (env : Nat → World) (maxRetries : Nat)
    (body : JObj) (newId : String) (h : badCreateInput body) :
    ∃ msg : String, runPOST true env maxRetries body newId =
      ⟨.badRequest msg, (env 0).readStore, 0, 0⟩ := by
  cases hv : validateCreate body with
  | some msg =>
    refine ⟨msg, ?_⟩
    unfold runPOST
    simp [hv]
  | none =>
    exfalso
    unfold validateCreate at hv
    split_ifs at hv with h1 h2 h3 h4 h5 h6 h7 h8 h9 h10
    all_goals try simp at hv
    simp only [Bool.not_eq_true, Bool.not_eq_false] at h1 h10
    rcases h with hy | hy | hy | hy | hy
    · obtain ⟨n, hn⟩ := (looksNumber_iff (jget body "year")).mp (by simpa using h1)
      exact hy n hn
    · obtain ⟨n, hn, hrange⟩ := hy
      rw [hn] at h2
      simp [numVal] at h2
      rcases hrange with hr | hr
      · omega
      · omega
    · obtain ⟨s, hs, hbad⟩ := hy
      rw [hs] at h3 h4
      simp [strVal, looksString] at h3 h4
      rcases hbad with hb | hb
      · exact h3 hb
      · omega
    · obtain ⟨c, hc, hmem⟩ := (categoryIncluded_iff (jget body "category")).mp
        (by simpa using h10)
      exact hy c hmem hc
    · rcases hy with ⟨s, hs, hlen⟩ | ⟨s, hs, hlen⟩
      · rw [hs] at h8
        simp [isAbsentOrNull, looksString, strVal] at h8
        omega
      · rw [hs] at h9
        simp [isAbsentOrNull, looksString, strVal] at h9
        omega

/-- Witness for C8: a create whose year is the string "not-a-number" is
rejected with a validation failure and zero store calls. -/
theorem create_validation_before_io_witness :
    ∃ msg : String, runPOST true sampleEnv 3 badYearBody "new-id" =
      ⟨.badRequest msg, sampleStore, 0, 0⟩ := by
  have h := create_validation_before_io sampleEnv 3 badYearBody "new-id"
    (Or.inl (by intro n hcon; simp [badYearBody, jget] at hcon))
  exact h
